import Mathlib

/-!
Verification development for the thumbnail-grid selection and paging engine
of `hydrus/client/gui/pages/ClientGUIResults.py`.

Media items are modelled by their identity (a natural number).  The panel
selection and focus state of `MediaPanel` is a record holding the ordered
media sequence, the per-item selected flag (the `Selectable` mixin field
`_selected`), the selection set `_selected_media`, the focus fields and the
shift-gesture fields.  Each public operation of the source is translated as
a pure state transformer.
-/

/-- Selection and focus state of `MediaPanel`.  `sorted` is `_sorted_media`
(the ordered ids), `flags m` is the `Selectable._selected` flag of item `m`,
`selectedSet` is `_selected_media`. -/
structure PanelState where
  sorted : List Nat
  flags : Nat → Bool
  selectedSet : Finset Nat
  focusedMedia : Option Nat
  lastHitMedia : Option Nat
  nextBestMediaIfFocusesRemoved : Option Nat
  shiftSelectStartedWith : Option Nat
  mediaAddedInCurrentShiftSelect : Finset Nat

/-- `MediaPanel._DeselectSelect`: deselect every item of `D` (clearing the
per-item flag and removing it from `_selected_media`), then select every item
of `S` (setting the flag and inserting it). -/
def deselectSelect (st : PanelState) (D S : Finset Nat) : PanelState :=
  { st with
    flags := fun m => if m ∈ S then true else if m ∈ D then false else st.flags m,
    selectedSet := (st.selectedSet \ D) ∪ S }

/-- `MediaPanel._EndShiftSelect`. -/
def endShiftSelect (st : PanelState) : PanelState :=
  { st with shiftSelectStartedWith := none, mediaAddedInCurrentShiftSelect := ∅ }

/-- `MediaPanel._StartShiftSelect`. -/
def startShiftSelect (st : PanelState) (media : Nat) : PanelState :=
  { st with shiftSelectStartedWith := some media, mediaAddedInCurrentShiftSelect := ∅ }

/-- The backward walk of `MediaPanel._SetFocusedMedia`: starting from item `m`
at index `i`, walk back while the current item is in the selection set; give
up with `none` when index 0 is reached while still selected. -/
def findNextBest (sorted : List Nat) (sel : Finset Nat) : Nat → Nat → Option Nat
  | i, m =>
    if m ∈ sel then
      match i with
      | 0 => none
      | j + 1 => findNextBest sorted sel j (sorted.getD j 0)
    else
      some m

/-- `MediaPanel._SetFocusedMedia`: when clearing focus with a focused item
present, cache the fallback focus computed by the backward walk; always set
`_last_hit_media` to the new focus. -/
def setFocusedMedia (st : PanelState) (media : Option Nat) : PanelState :=
  let nextBest :=
    match media, st.focusedMedia with
    | none, some f => findNextBest st.sorted st.selectedSet (st.sorted.indexOf f) f
    | _, _ => none
  { st with
    nextBestMediaIfFocusesRemoved := nextBest,
    focusedMedia := media,
    lastHitMedia := media }

/-- `MediaPanel._Select`: diff the target selection against the current one,
apply the minimal deselect/select pass, and re-pick focus when the focused
item was deselected (or there was none).  `matching` is the set computed by
the file filter; `anyVisible` stands for the geometry test
`_MediaIsVisible` over the new selection.  The recursive plain hit the source
makes on the first still-selected item in sort order only runs its
already-selected branch (the item is drawn from the selection), so it is the
focus change plus anchor restart written here. -/
def selectFilter (st : PanelState) (matching : Finset Nat) (anyVisible : Bool) : PanelState :=
  let D := st.selectedSet \ matching
  let S := matching \ st.selectedSet
  let moveFocus : Bool :=
    (match st.focusedMedia with
     | some f => decide (f ∈ D)
     | none => false) || st.focusedMedia.isNone
  let anchorDeselected : Bool :=
    match st.shiftSelectStartedWith with
    | some a => decide (a ∈ D)
    | none => false
  let st1 := if moveFocus || anchorDeselected then endShiftSelect st else st
  let st2 := deselectSelect st1 D S
  if moveFocus then
    if st2.selectedSet = ∅ then
      setFocusedMedia st2 none
    else if anyVisible then
      st2
    else
      match st2.sorted.find? (fun m => decide (m ∈ st2.selectedSet)) with
      | some m => startShiftSelect (setFocusedMedia st2 (some m)) m
      | none => st2
  else st2

/-- The `media is None` branch of `MediaPanel._HitMedia` (click on empty
space with no modifier): select nothing, clear focus, end the shift gesture. -/
def hitNone (st : PanelState) : PanelState :=
  endShiftSelect (setFocusedMedia (selectFilter st ∅ true) none)

/-- The ctrl-click branch of `MediaPanel._HitMedia`.  `focusIt` stands for the
configured focus-on-ctrl-click policy outcome for this item. -/
def ctrlHit (st : PanelState) (media : Nat) (focusIt : Bool) : PanelState :=
  if st.flags media then
    let st1 := deselectSelect st {media} ∅
    let st2 := if st1.focusedMedia = some media then setFocusedMedia st1 none else st1
    endShiftSelect st2
  else
    let st1 := deselectSelect st ∅ {media}
    let st2 :=
      if focusIt then setFocusedMedia st1 (some media)
      else { st1 with lastHitMedia := some media }
    startShiftSelect st2 media

/-- Python list slice `l[a:b]` for `0 ≤ a ≤ b`. -/
def listSlice (l : List Nat) (a b : Nat) : List Nat :=
  (l.drop a).take (b - a)

/-- The inclusive index range walked by the shift-click branch of
`MediaPanel._HitMedia`: the slice of `_sorted_media` between the anchor index
and the clicked index. -/
def shiftRange (sorted : List Nat) (startIndex endIndex : Nat) : List Nat :=
  if startIndex < endIndex then
    listSlice sorted startIndex (endIndex + 1)
  else
    listSlice sorted endIndex (startIndex + 1)

/-- The shift-click branch of `MediaPanel._HitMedia` with an anchor present:
select everything in the anchor-to-item range, deselect what the current
gesture added outside the range, and update the gesture working set.
`focusIt` stands for the configured focus-on-shift-click policy outcome. -/
def shiftHit (st : PanelState) (media anchor : Nat) (focusIt : Bool) : PanelState :=
  let startIndex := st.sorted.indexOf anchor
  let endIndex := st.sorted.indexOf media
  let mediaFromStartOfShiftToEnd := (shiftRange st.sorted startIndex endIndex).toFinset
  let mediaToDeselect :=
    st.mediaAddedInCurrentShiftSelect.filter (fun m => m ∉ mediaFromStartOfShiftToEnd)
  let mediaToSelect :=
    mediaFromStartOfShiftToEnd.filter (fun m => st.flags m = false)
  let st1 :=
    { st with
      mediaAddedInCurrentShiftSelect :=
        (st.mediaAddedInCurrentShiftSelect \ mediaToDeselect) ∪ mediaToSelect }
  let st2 := deselectSelect st1 mediaToDeselect mediaToSelect
  if focusIt then setFocusedMedia st2 (some media)
  else { st2 with lastHitMedia := some media }

/-- The plain-click branch of `MediaPanel._HitMedia`: if the item is not
selected, replace the selection with the singleton; either way set focus to
the item and restart the shift anchor there. -/
def plainHit (st : PanelState) (media : Nat) : PanelState :=
  let st1 :=
    if st.flags media = false then deselectSelect st st.selectedSet {media} else st
  startShiftSelect (setFocusedMedia st1 (some media)) media

/-- `MediaPanel._HitMedia`, dispatching on the modifier keys and the presence
of a shift anchor exactly as the source branches do. -/
def hitMedia (st : PanelState) (target : Option Nat) (ctrl shift : Bool)
    (focusItCtrl focusItShift : Bool) : PanelState :=
  match target with
  | none => if !ctrl && !shift then hitNone st else st
  | some media =>
    if ctrl && !shift then
      ctrlHit st media focusItCtrl
    else
      match st.shiftSelectStartedWith with
      | some anchor =>
        if shift then shiftHit st media anchor focusItShift else plainHit st media
      | none => plainHit st media

/-- Modelled from the spec: `ClientMedia.MediaList._RemoveMediaDirectly` (the
base-class removal that `MediaPanel._RemoveMediaDirectly` delegates to is not
part of this excerpt).  Per the spec, removal excludes the items from the
ordered sequence and from the selection set together. -/
def baseRemoveMedia (st : PanelState) (removed : Finset Nat) : PanelState :=
  { st with
    sorted := st.sorted.filter (fun m => m ∉ removed),
    selectedSet := st.selectedSet \ removed }

/-- `MediaPanelThumbnails._RemoveMediaDirectly`: clear focus first when the
focused item is among the removed ones (caching the fallback focus), then do
the base removal and end the shift gesture. -/
def removeMedia (st : PanelState) (removed : Finset Nat) : PanelState :=
  let st1 :=
    match st.focusedMedia with
    | some f => if f ∈ removed then setFocusedMedia st none else st
    | none => st
  endShiftSelect (baseRemoveMedia st1 removed)

/-- The selection invariant of the spec: the selection set equals exactly the
set of items of the sorted sequence whose selected flag is true. -/
def panelInvariant (st : PanelState) : Prop :=
  st.selectedSet = (st.sorted.filter st.flags).toFinset

instance (st : PanelState) : Decidable (panelInvariant st) := by
  unfold panelInvariant
  infer_instance

/-- The pointwise reading of the selection invariant: items of the sequence
are in the selection set exactly when their flag is set.  The full invariant
implies it. -/
def selectionFlagsAgree (st : PanelState) : Prop :=
  ∀ m ∈ st.sorted, (m ∈ st.selectedSet ↔ st.flags m = true)

instance (st : PanelState) : Decidable (selectionFlagsAgree st) := by
  unfold selectionFlagsAgree
  infer_instance

/-!
Page cache model (`MediaPanelThumbnails`).  A canvas page buffer is modelled
by a buffer id; `clean` is the dict `_clean_canvas_pages` as an association
list in insertion order, `dirty` is the list `_dirty_canvas_pages`, and
`nextBuf` is the allocation counter standing for fresh bitmap identities.
-/

/-- Page cache state of `MediaPanelThumbnails`. -/
structure PageCache where
  clean : List (Nat × Nat)
  dirty : List Nat
  nextBuf : Nat

/-- Dict lookup `_clean_canvas_pages[ i ]`. -/
def lookupPage (clean : List (Nat × Nat)) (i : Nat) : Option Nat :=
  (clean.find? (fun kv => kv.1 == i)).map Prod.snd

/-- Dict deletion `del _clean_canvas_pages[ i ]`, returning the removed buffer
alongside the remaining entries; `none` when the key is absent. -/
def extractPage : List (Nat × Nat) → Nat → Option (Nat × List (Nat × Nat))
  | [], _ => none
  | kv :: rest, i =>
    if kv.1 = i then some (kv.2, rest)
    else
      match extractPage rest i with
      | some (b, rest') => some (b, kv :: rest')
      | none => none

/-- `MediaPanelThumbnails._DirtyPage`: move the buffer of a clean page into
the dirty pool (the waterfall cancellation has no cache-state effect). -/
def dirtyPage (i : Nat) (c : PageCache) : PageCache :=
  match extractPage c.clean i with
  | some (b, clean') => { c with clean := clean', dirty := c.dirty ++ [b] }
  | none => c

/-- `MediaPanelThumbnails._DirtyAllPages`: snapshot the clean keys, then dirty
each one in turn. -/
def dirtyAllPages (c : PageCache) : PageCache :=
  c.clean.foldl (fun acc kv => dirtyPage kv.1 acc) c

/-- `MediaPanelThumbnails._DeleteAllDirtyPages`. -/
def deleteAllDirtyPages (c : PageCache) : PageCache :=
  { c with dirty := [] }

/-- `MediaPanelThumbnails._CreateNewDirtyPage`: allocate a fresh buffer and
append it to the dirty pool. -/
def createNewDirtyPage (c : PageCache) : PageCache :=
  { c with dirty := c.dirty ++ [c.nextBuf], nextBuf := c.nextBuf + 1 }

/-- The refill step of `MediaPanelThumbnails._InnerWidget.paintEvent` for a
page that is not clean: when the dirty pool is empty, either steal the given
unneeded clean page (the randomly chosen element of the candidates, when one
exists) or allocate a fresh buffer. -/
def obtainDirty (steal : Option Nat) (c : PageCache) : PageCache :=
  if c.dirty.isEmpty then
    match steal with
    | some s => dirtyPage s c
    | none => createNewDirtyPage c
  else c

/-- The pop-render-insert step of the paint pass: pop the last dirty buffer,
render the page into it, and record the page as clean. -/
def popDirtyInto (i : Nat) (c1 : PageCache) : PageCache :=
  match c1.dirty.getLast? with
  | some b =>
    { c1 with dirty := c1.dirty.dropLast, clean := c1.clean ++ [(i, b)] }
  | none => c1

/-- The ensure-page step of `MediaPanelThumbnails._InnerWidget.paintEvent` for
one page index: when the page is not clean, obtain a dirty buffer (popping the
pool, stealing an unneeded clean page, or allocating), render into it, and
record the page as clean. -/
def ensurePage (i : Nat) (steal : Option Nat) (c : PageCache) : PageCache :=
  if (lookupPage c.clean i).isSome then c
  else popDirtyInto i (obtainDirty steal c)

/-- Well-formedness of the page cache: clean page indices are unique, every
buffer lives in at most one pool (and at most once there), and all buffers
are below the allocation counter. -/
def cacheWF (c : PageCache) : Prop :=
  (c.clean.map Prod.fst).Nodup ∧
  (c.clean.map Prod.snd ++ c.dirty).Nodup ∧
  (∀ b ∈ c.clean.map Prod.snd ++ c.dirty, b < c.nextBuf)

instance (c : PageCache) : Decidable (cacheWF c) := by
  unfold cacheWF
  infer_instance

/-!
Geometry recomputation and the resize path
(`MediaPanelThumbnails._ReinitialisePageCacheIfNeeded` and `EventResize`).
-/

/-- Geometry-holding state of `MediaPanelThumbnails`: the page cache plus
`_num_columns`, `_num_rows_per_canvas_page`, `_num_rows_per_actual_page` and
`_last_size`. -/
structure ThumbState where
  cache : PageCache
  numColumns : Nat
  numRowsPerCanvasPage : Nat
  numRowsPerActualPage : Nat
  lastWidth : Nat
  lastHeight : Nat

/-- `MediaPanelThumbnails._ReinitialisePageCacheIfNeeded`: recompute the
column and row counts from the viewport and span sizes, and invalidate the
canvas pages when the layout changed or the width grew. -/
def reinitialisePageCacheIfNeeded (st : ThumbState)
    (myWidth myHeight spanWidth spanHeight : Nat) : ThumbState :=
  let oldNumRows := st.numRowsPerCanvasPage
  let oldNumColumns := st.numColumns
  let oldWidth := st.lastWidth
  let oldHeight := st.lastHeight
  let numRows := myHeight / spanHeight
  let st1 :=
    { st with
      numRowsPerActualPage := max 1 numRows,
      numRowsPerCanvasPage := max 1 (numRows / 2),
      numColumns := max 1 (myWidth / spanWidth) }
  let dimensionsChanged := oldWidth ≠ myWidth ∨ oldHeight ≠ myHeight
  let thumbLayoutChanged :=
    oldNumColumns ≠ st1.numColumns ∨ oldNumRows ≠ st1.numRowsPerCanvasPage
  if dimensionsChanged ∨ thumbLayoutChanged then
    if thumbLayoutChanged ∨ oldWidth < myWidth then
      { st1 with cache := deleteAllDirtyPages (dirtyAllPages st1.cache) }
    else st1
  else st1

/-- `MediaPanelThumbnails.EventResize`: reinitialise the page cache against
the old `_last_size`, then record the new viewport size. -/
def eventResize (st : ThumbState) (myWidth myHeight spanWidth spanHeight : Nat) : ThumbState :=
  let st1 := reinitialisePageCacheIfNeeded st myWidth myHeight spanWidth spanHeight
  { st1 with lastWidth := myWidth, lastHeight := myHeight }

/-!
Fade scheduler model (`ThumbnailWaitingToBeDrawn`,
`ThumbnailWaitingToBeDrawnAnimated`, `_FadeThumbnails` and the per-entry
processing of `TIMERAnimationUpdate`).  Wall-clock time enters the source
only through the whole number of 60 Hz frame periods elapsed since the
animation started, which is modelled as the value `elapsed`.
-/

/-- `FADE_DURATION_S = 0.5`. -/
def fadeDurationS : ℚ := 1 / 2

/-- `FRAME_DURATION_60FPS = 1.0 / 60`. -/
def frameDuration60FPS : ℚ := 1 / 60

/-- `ThumbnailWaitingToBeDrawnAnimated.__init__`: the frame budget
`max( int( FADE_DURATION_S // FRAME_DURATION_60FPS ), 1 )`, computed here in
exact arithmetic (at these constants the float floor division of the source
yields the same whole number). -/
def numFramesToDrawAnimated : Nat :=
  max (Int.toNat ⌊fadeDurationS / frameDuration60FPS⌋) 1

/-- One entry of `_hashes_to_thumbnails_waiting_to_be_drawn`.  `animated`
distinguishes `ThumbnailWaitingToBeDrawnAnimated` from the plain class; for
the plain class `framesToDraw` records that it completes in a single draw. -/
structure DrawEntry where
  hash : Nat
  thumbnail : Nat
  thumbnailIndex : Nat
  animated : Bool
  framesDrawn : Nat
  framesToDraw : Nat
  drawComplete : Bool

/-- The draw object created by `MediaPanelThumbnails._FadeThumbnails` for an
available thumbnail: the animated class when the `fade_thumbnails` option is
set, the plain single-draw class otherwise. -/
def mkThumbnailDrawObject (fadeThumbnails : Bool) (hash thumbnail thumbnailIndex : Nat) :
    DrawEntry :=
  { hash := hash
    thumbnail := thumbnail
    thumbnailIndex := thumbnailIndex
    animated := fadeThumbnails
    framesDrawn := 0
    framesToDraw := if fadeThumbnails then numFramesToDrawAnimated else 1
    drawComplete := false }

/-- `ThumbnailWaitingToBeDrawnAnimated._GetNumFramesOutstanding` with
`elapsed` whole frame periods since the animation started. -/
def framesOutstanding (e : DrawEntry) (elapsed : Nat) : Nat :=
  min elapsed (e.framesToDraw - e.framesDrawn)

/-- `DrawDue`: always true for the plain class, positive outstanding frames
for the animated class. -/
def drawDue (e : DrawEntry) (elapsed : Nat) : Bool :=
  if e.animated then decide (0 < framesOutstanding e elapsed) else true

/-- `DrawToPainter`: returns the updated entry together with the number of
full-opacity draws and of reduced-opacity draws it performed. -/
def drawToPainter (e : DrawEntry) (elapsed : Nat) : DrawEntry × Nat × Nat :=
  if e.animated then
    let n := framesOutstanding e elapsed
    if e.framesToDraw ≤ e.framesDrawn + n then
      ({ e with framesDrawn := e.framesToDraw, drawComplete := true }, 1, 0)
    else
      ({ e with framesDrawn := e.framesDrawn + n }, 0, n)
  else
    ({ e with drawComplete := true }, 1, 0)

/-- The body of the per-entry loop of
`MediaPanelThumbnails.TIMERAnimationUpdate`: check staleness of a due entry
against the current sorted sequence and the clean page pool, draw when the
checks pass, and drop the entry when it is stale or its draw completed.
Returns the retained entry (when kept) and the counts of full-opacity and
reduced-opacity draws performed. -/
def processEntry (sorted : List Nat) (cleanIndices : List Nat)
    (numColumns numRowsPerCanvasPage : Nat) (e : DrawEntry) (elapsed : Nat) :
    Option DrawEntry × Nat × Nat :=
  if drawDue e elapsed then
    let expected := sorted.get? e.thumbnailIndex
    let pageIndex := e.thumbnailIndex / (numColumns * numRowsPerCanvasPage)
    if expected ≠ some e.thumbnail then
      (none, 0, 0)
    else if pageIndex ∉ cleanIndices then
      (none, 0, 0)
    else
      let (e', fullDraws, alphaDraws) := drawToPainter e elapsed
      (if e'.drawComplete then none else some e', fullDraws, alphaDraws)
  else
    (if e.drawComplete then none else some e, 0, 0)

/-!
Mouse hit testing (`MediaPanelThumbnails._GetThumbnailUnderMouse`).  The
coordinates are integers; Python floor division and remainder are
`Int.fdiv` and `Int.fmod`.
-/

/-- `MediaPanelThumbnails._GetThumbnailUnderMouse`. -/
def getThumbnailUnderMouse (sorted : List Nat) (numColumns : Nat)
    (spanX spanY thumbnailMargin x y : Int) : Option Nat :=
  let xMod := x.fmod spanX
  let yMod := y.fmod spanY
  if xMod ≤ thumbnailMargin ∨ yMod ≤ thumbnailMargin ∨
      xMod > spanX - thumbnailMargin ∨ yMod > spanY - thumbnailMargin then
    none
  else
    let columnIndex := x.fdiv spanX
    let rowIndex := y.fdiv spanY
    if (numColumns : Int) ≤ columnIndex then
      none
    else
      let thumbnailIndex := (numColumns : Int) * rowIndex + columnIndex
      if thumbnailIndex < 0 then
        none
      else if (sorted.length : Int) ≤ thumbnailIndex then
        none
      else
        some (sorted.getD thumbnailIndex.toNat 0)

/-!
Theorems.  First the selection-invariant preservation lemmas for each state
transformer, then the claim theorems.
-/

theorem panelInvariant_congr {st st' : PanelState} (hs : st'.sorted = st.sorted)
    (hf : st'.flags = st.flags) (hsel : st'.selectedSet = st.selectedSet)
    (h : panelInvariant st) : panelInvariant st' := by
  unfold panelInvariant at h ⊢
  rw [hs, hf, hsel, h]

theorem panelInvariant_selectionFlagsAgree {st : PanelState} (h : panelInvariant st) :
    selectionFlagsAgree st := by
  intro m hm
  unfold panelInvariant at h
  rw [h]
  simp [List.mem_filter, hm]

theorem inv_deselectSelect {st : PanelState} (D S : Finset Nat)
    (hS : ∀ m ∈ S, m ∈ st.sorted) (h : panelInvariant st) :
    panelInvariant (deselectSelect st D S) := by
  unfold panelInvariant at h ⊢
  unfold deselectSelect
  dsimp only
  ext m
  simp only [Finset.mem_union, Finset.mem_sdiff, h, List.mem_toFinset, List.mem_filter]
  by_cases hmS : m ∈ S
  · simp [hmS, hS m hmS]
  · by_cases hmD : m ∈ D
    · simp [hmS, hmD]
    · simp [hmS, hmD]

theorem inv_endShiftSelect {st : PanelState} (h : panelInvariant st) :
    panelInvariant (endShiftSelect st) :=
  panelInvariant_congr rfl rfl rfl h

theorem inv_startShiftSelect {st : PanelState} (media : Nat) (h : panelInvariant st) :
    panelInvariant (startShiftSelect st media) :=
  panelInvariant_congr rfl rfl rfl h

theorem inv_setFocusedMedia {st : PanelState} (o : Option Nat) (h : panelInvariant st) :
    panelInvariant (setFocusedMedia st o) :=
  panelInvariant_congr rfl rfl rfl h

theorem inv_setLastHit {st : PanelState} (o : Option Nat) (h : panelInvariant st) :
    panelInvariant { st with lastHitMedia := o } :=
  panelInvariant_congr rfl rfl rfl h

theorem inv_selectFilter {st : PanelState} (matching : Finset Nat) (anyVisible : Bool)
    (hmatching : ∀ m ∈ matching, m ∈ st.sorted) (h : panelInvariant st) :
    panelInvariant (selectFilter st matching anyVisible) := by
  have hS : ∀ m ∈ matching \ st.selectedSet, m ∈ st.sorted :=
    fun m hm => hmatching m (Finset.mem_sdiff.1 hm).1
  unfold selectFilter
  dsimp only
  split_ifs <;> first
  | exact inv_setFocusedMedia _ (inv_deselectSelect _ _ hS (inv_endShiftSelect h))
  | exact inv_setFocusedMedia _ (inv_deselectSelect _ _ hS h)
  | exact inv_deselectSelect _ _ hS (inv_endShiftSelect h)
  | exact inv_deselectSelect _ _ hS h
  | (split
     all_goals first
     | exact inv_startShiftSelect _ (inv_setFocusedMedia _ (inv_deselectSelect _ _ hS (inv_endShiftSelect h)))
     | exact inv_startShiftSelect _ (inv_setFocusedMedia _ (inv_deselectSelect _ _ hS h))
     | exact inv_deselectSelect _ _ hS (inv_endShiftSelect h))

theorem inv_hitNone {st : PanelState} (h : panelInvariant st) :
    panelInvariant (hitNone st) :=
  inv_endShiftSelect (inv_setFocusedMedia _
    (inv_selectFilter _ _ (fun m hm => absurd hm (Finset.not_mem_empty m)) h))

theorem inv_ctrlHit {st : PanelState} (media : Nat) (focusIt : Bool)
    (hmem : media ∈ st.sorted) (h : panelInvariant st) :
    panelInvariant (ctrlHit st media focusIt) := by
  have hS0 : ∀ m ∈ (∅ : Finset Nat), m ∈ st.sorted :=
    fun m hm => absurd hm (Finset.not_mem_empty m)
  have hS1 : ∀ m ∈ ({media} : Finset Nat), m ∈ st.sorted := by
    intro m hm
    rw [Finset.mem_singleton.1 hm]
    exact hmem
  unfold ctrlHit
  dsimp only
  split_ifs with h1 h2 h3
  · exact inv_endShiftSelect (inv_setFocusedMedia _ (inv_deselectSelect _ _ hS0 h))
  · exact inv_endShiftSelect (inv_deselectSelect _ _ hS0 h)
  · exact inv_startShiftSelect _ (inv_setFocusedMedia _ (inv_deselectSelect _ _ hS1 h))
  · exact inv_startShiftSelect _ (inv_setLastHit _ (inv_deselectSelect _ _ hS1 h))

theorem inv_shiftHit {st : PanelState} (media anchor : Nat) (focusIt : Bool)
    (h : panelInvariant st) : panelInvariant (shiftHit st media anchor focusIt) := by
  have hS : ∀ m ∈ ((shiftRange st.sorted (st.sorted.indexOf anchor)
      (st.sorted.indexOf media)).toFinset.filter (fun m => st.flags m = false)),
      m ∈ st.sorted := by
    intro m hm
    have hm' : m ∈ shiftRange st.sorted (st.sorted.indexOf anchor)
        (st.sorted.indexOf media) :=
      List.mem_toFinset.1 (Finset.mem_filter.1 hm).1
    unfold shiftRange listSlice at hm'
    split at hm' <;> exact List.drop_subset _ _ (List.take_subset _ _ hm')
  unfold shiftHit
  dsimp only
  have h1 : panelInvariant
      { st with
        mediaAddedInCurrentShiftSelect :=
          (st.mediaAddedInCurrentShiftSelect \
              st.mediaAddedInCurrentShiftSelect.filter
                (fun m => m ∉ (shiftRange st.sorted (st.sorted.indexOf anchor) (st.sorted.indexOf media)).toFinset)) ∪
            ((shiftRange st.sorted (st.sorted.indexOf anchor) (st.sorted.indexOf media)).toFinset.filter
              (fun m => st.flags m = false)) } :=
    panelInvariant_congr rfl rfl rfl h
  split_ifs with h2
  · exact inv_setFocusedMedia _ (inv_deselectSelect _ _ hS h1)
  · exact inv_setLastHit _ (inv_deselectSelect _ _ hS h1)

theorem inv_plainHit {st : PanelState} (media : Nat) (hmem : media ∈ st.sorted)
    (h : panelInvariant st) : panelInvariant (plainHit st media) := by
  have hS1 : ∀ m ∈ ({media} : Finset Nat), m ∈ st.sorted := by
    intro m hm
    rw [Finset.mem_singleton.1 hm]
    exact hmem
  unfold plainHit
  dsimp only
  split_ifs with h1
  · exact inv_startShiftSelect _ (inv_setFocusedMedia _ (inv_deselectSelect _ _ hS1 h))
  · exact inv_startShiftSelect _ (inv_setFocusedMedia _ h)

theorem inv_hitMedia {st : PanelState} (target : Option Nat)
    (ctrl shift focusItCtrl focusItShift : Bool)
    (htarget : ∀ m, target = some m → m ∈ st.sorted) (h : panelInvariant st) :
    panelInvariant (hitMedia st target ctrl shift focusItCtrl focusItShift) := by
  unfold hitMedia
  match target with
  | none =>
    dsimp only
    split_ifs with h1
    · exact inv_hitNone h
    · exact h
  | some media =>
    have hmem : media ∈ st.sorted := htarget media rfl
    dsimp only
    by_cases h1 : (ctrl && !shift) = true
    · rw [if_pos h1]
      exact inv_ctrlHit _ _ hmem h
    · rw [if_neg h1]
      cases st.shiftSelectStartedWith with
      | some anchor =>
        dsimp only
        by_cases h2 : shift = true
        · rw [if_pos h2]
          exact inv_shiftHit _ _ _ h
        · rw [if_neg h2]
          exact inv_plainHit _ hmem h
      | none => exact inv_plainHit _ hmem h

theorem inv_baseRemoveMedia {st : PanelState} (removed : Finset Nat)
    (h : panelInvariant st) : panelInvariant (baseRemoveMedia st removed) := by
  unfold panelInvariant at h ⊢
  unfold baseRemoveMedia
  dsimp only
  ext m
  simp only [Finset.mem_sdiff, h, List.mem_toFinset, List.mem_filter, decide_eq_true_eq]
  tauto

theorem inv_removeMedia {st : PanelState} (removed : Finset Nat)
    (h : panelInvariant st) : panelInvariant (removeMedia st removed) := by
  unfold removeMedia
  dsimp only
  cases hF : st.focusedMedia with
  | some f =>
    dsimp only
    split_ifs with h1
    · exact inv_endShiftSelect (inv_baseRemoveMedia _ (inv_setFocusedMedia _ h))
    · exact inv_endShiftSelect (inv_baseRemoveMedia _ h)
  | none => exact inv_endShiftSelect (inv_baseRemoveMedia _ h)

/-- C1: after every public selection-mutating operation (a hit with any
modifier combination, a select-by-filter, a removal), and after any
deselect/select pass itself, the selection set equals exactly the set of
items of the sorted sequence whose individual selected flag is true.  The
hypotheses say the hit target, the items passed for selection and the filter
result are items of the sequence, as they are at every call site of the
source. -/
theorem c1_selection_set_matches_flags (st : PanelState) (D S : Finset Nat)
    (target : Option Nat) (ctrl shift focusItCtrl focusItShift : Bool)
    (matching : Finset Nat) (anyVisible : Bool) (removed : Finset Nat)
    (h : panelInvariant st)
    (hS : ∀ m ∈ S, m ∈ st.sorted)
    (htarget : ∀ m, target = some m → m ∈ st.sorted)
    (hmatching : ∀ m ∈ matching, m ∈ st.sorted) :
    panelInvariant (deselectSelect st D S) ∧
    panelInvariant (hitMedia st target ctrl shift focusItCtrl focusItShift) ∧
    panelInvariant (selectFilter st matching anyVisible) ∧
    panelInvariant (removeMedia st removed) :=
  ⟨inv_deselectSelect D S hS h,
    inv_hitMedia target ctrl shift focusItCtrl focusItShift htarget h,
    inv_selectFilter matching anyVisible hmatching h, inv_removeMedia removed h⟩

/-- Concrete three-item panel state with the first item selected, used to
instantiate hypothesis-bearing theorems. -/
def stWitness : PanelState :=
  { sorted := [0, 1, 2]
    flags := fun m => m == 0
    selectedSet := {0}
    focusedMedia := some 0
    lastHitMedia := some 0
    nextBestMediaIfFocusesRemoved := none
    shiftSelectStartedWith := some 0
    mediaAddedInCurrentShiftSelect := ∅ }

/-- Witness for C1 at a concrete state: the invariant holds before and after
a plain hit on the second item. -/
theorem c1_selection_set_matches_flags_witness :
    panelInvariant stWitness ∧
    panelInvariant (hitMedia stWitness (some 1) false false false false) :=
  ⟨by decide,
    (c1_selection_set_matches_flags stWitness ∅ {1} (some 1) false false false false
      {1} true {2} (by decide) (by decide)
      (by intro m hm; cases hm; decide) (by decide)).2.1⟩

/-- Concrete state for C3: two items, both selected. -/
def stC3 : PanelState :=
  { sorted := [0, 1]
    flags := fun m => decide (m < 2)
    selectedSet := {0, 1}
    focusedMedia := none
    lastHitMedia := none
    nextBestMediaIfFocusesRemoved := none
    shiftSelectStartedWith := none
    mediaAddedInCurrentShiftSelect := ∅ }

/-- C3 counterexample: in a valid state where items 0 and 1 are both
selected, a plain click (no ctrl, no shift) on the already-selected item 0
leaves the selection as the pair, not the singleton the claim demands. -/
theorem c3_counterexample :
    panelInvariant stC3 ∧
    (hitMedia stC3 (some 0) false false false false).selectedSet = {0, 1} ∧
    ¬(hitMedia stC3 (some 0) false false false false).selectedSet = {0} := by
  decide

theorem hitMedia_plain_eq (st : PanelState) (media : Nat) (fc fs : Bool) :
    hitMedia st (some media) false false fc fs = plainHit st media := by
  unfold hitMedia
  cases st.shiftSelectStartedWith <;> rfl

/-- C3 (amended): a plain click on an unselected item replaces the selection
with exactly that singleton; a plain click on an already-selected item leaves
the selection (set and flags) unchanged; in both cases focus, last hit and a
fresh shift anchor are set to the clicked item. -/
theorem c3_plain_click_amended (st : PanelState) (media : Nat) (fc fs : Bool) :
    (st.flags media = false →
      (hitMedia st (some media) false false fc fs).selectedSet = {media} ∧
      (hitMedia st (some media) false false fc fs).flags media = true) ∧
    (st.flags media = true →
      (hitMedia st (some media) false false fc fs).selectedSet = st.selectedSet ∧
      (hitMedia st (some media) false false fc fs).flags = st.flags) ∧
    (hitMedia st (some media) false false fc fs).focusedMedia = some media ∧
    (hitMedia st (some media) false false fc fs).lastHitMedia = some media ∧
    (hitMedia st (some media) false false fc fs).shiftSelectStartedWith = some media ∧
    (hitMedia st (some media) false false fc fs).mediaAddedInCurrentShiftSelect = ∅ := by
  rw [hitMedia_plain_eq]
  unfold plainHit startShiftSelect setFocusedMedia deselectSelect
  by_cases h : st.flags media = false
  · simp [h]
  · simp [h]

/-- Witness for C3 (amended) at a concrete state: plain-clicking unselected
item 1 yields the singleton selection. -/
theorem c3_plain_click_amended_witness :
    (hitMedia stC3 (some 2) false false false false).selectedSet = {2} :=
  ((c3_plain_click_amended stC3 2 false false).1 (by decide)).1

/-- The set of items in the inclusive anchor-to-item index range used by the
shift-click branch. -/
def gestureRange (st : PanelState) (media anchor : Nat) : Finset Nat :=
  (shiftRange st.sorted (st.sorted.indexOf anchor) (st.sorted.indexOf media)).toFinset

theorem mem_gestureRange_mem_sorted {st : PanelState} {media anchor m : Nat}
    (h : m ∈ gestureRange st media anchor) : m ∈ st.sorted := by
  unfold gestureRange shiftRange listSlice at h
  rw [List.mem_toFinset] at h
  split at h <;> exact List.drop_subset _ _ (List.take_subset _ _ h)

theorem hitMedia_shift_eq (st : PanelState) (media anchor : Nat) (ctrl fc fs : Bool)
    (hA : st.shiftSelectStartedWith = some anchor) :
    hitMedia st (some media) ctrl true fc fs = shiftHit st media anchor fs := by
  unfold hitMedia
  rw [hA]
  cases ctrl <;> rfl

/-- C4: on a shift-click with an anchor present, every item of the inclusive
anchor-to-item index range ends up selected; every item previously added by
the current shift gesture that falls outside the new range is deselected;
items outside the range that the gesture never added are untouched (so
selections predating the gesture survive); and the gesture working set
becomes the old set minus the removals plus the additions. -/
theorem c4_shift_click_range (st : PanelState) (media anchor : Nat) (ctrl fc fs : Bool)
    (hA : st.shiftSelectStartedWith = some anchor) (hInv : selectionFlagsAgree st) :
    (∀ m ∈ gestureRange st media anchor,
      (hitMedia st (some media) ctrl true fc fs).flags m = true ∧
      m ∈ (hitMedia st (some media) ctrl true fc fs).selectedSet) ∧
    (∀ m ∈ st.mediaAddedInCurrentShiftSelect, m ∉ gestureRange st media anchor →
      (hitMedia st (some media) ctrl true fc fs).flags m = false ∧
      m ∉ (hitMedia st (some media) ctrl true fc fs).selectedSet) ∧
    (∀ m, m ∉ st.mediaAddedInCurrentShiftSelect → m ∉ gestureRange st media anchor →
      (hitMedia st (some media) ctrl true fc fs).flags m = st.flags m ∧
      (m ∈ (hitMedia st (some media) ctrl true fc fs).selectedSet ↔ m ∈ st.selectedSet)) ∧
    (hitMedia st (some media) ctrl true fc fs).mediaAddedInCurrentShiftSelect =
      (st.mediaAddedInCurrentShiftSelect \
          st.mediaAddedInCurrentShiftSelect.filter (fun m => m ∉ gestureRange st media anchor)) ∪
        (gestureRange st media anchor).filter (fun m => st.flags m = false) := by
  rw [hitMedia_shift_eq st media anchor ctrl fc fs hA]
  unfold shiftHit
  simp only [gestureRange]
  split_ifs
  all_goals {
    refine ⟨?_, ?_, ?_, rfl⟩
    · intro m hm
      have hsorted : m ∈ st.sorted :=
        @mem_gestureRange_mem_sorted st media anchor m
          (by simpa [gestureRange] using hm)
      have hmList : m ∈ shiftRange st.sorted (st.sorted.indexOf anchor)
          (st.sorted.indexOf media) := List.mem_toFinset.1 hm
      by_cases hflag : st.flags m = false
      · constructor
        · simp [setFocusedMedia, deselectSelect, hmList, hflag]
        · simp [setFocusedMedia, deselectSelect, hmList, hflag]
      · have htrue : st.flags m = true := by
          cases hb : st.flags m
          · exact absurd hb hflag
          · rfl
        have hsel : m ∈ st.selectedSet := (hInv m hsorted).2 htrue
        constructor
        · simp [setFocusedMedia, deselectSelect, hmList, htrue]
        · simp [setFocusedMedia, deselectSelect, hmList, htrue, hsel]
    · intro m hmW hm
      have hmList : m ∉ shiftRange st.sorted (st.sorted.indexOf anchor)
          (st.sorted.indexOf media) := fun hc => hm (by simpa [gestureRange] using List.mem_toFinset.2 hc)
      constructor
      · simp [setFocusedMedia, deselectSelect, hmList, hmW]
      · simp [setFocusedMedia, deselectSelect, hmList, hmW]
    · intro m hmW hm
      have hmList : m ∉ shiftRange st.sorted (st.sorted.indexOf anchor)
          (st.sorted.indexOf media) := fun hc => hm (by simpa [gestureRange] using List.mem_toFinset.2 hc)
      constructor
      · simp [setFocusedMedia, deselectSelect, hmList, hmW]
      · simp [setFocusedMedia, deselectSelect, hmList, hmW]
  }

/-- Concrete state for the C4 witness: five items, items 0..2 selected, a
shift gesture anchored at item 0 that previously added items 1 and 2. -/
def stC4 : PanelState :=
  { sorted := [0, 1, 2, 3, 4]
    flags := fun m => decide (m < 3)
    selectedSet := {0, 1, 2}
    focusedMedia := some 2
    lastHitMedia := some 2
    nextBestMediaIfFocusesRemoved := none
    shiftSelectStartedWith := some 0
    mediaAddedInCurrentShiftSelect := {1, 2} }

/-- Witness for C4: shrinking the gesture range to items 0..1 deselects item
2, which the gesture had added. -/
theorem c4_shift_click_range_witness :
    2 ∉ (hitMedia stC4 (some 1) false true false false).selectedSet :=
  ((c4_shift_click_range stC4 1 0 false false false rfl (by decide)).2.1 2
    (by decide) (by decide)).2

/-- The fallback-focus target as the spec words it: the nearest item at or
preceding index `i` that is not selected (the greatest such index), `none`
when every item at or before `i` is selected. -/
def specNextBest (sorted : List Nat) (sel : Finset Nat) (i : Nat) : Option Nat :=
  (((List.range (i + 1)).reverse).find? (fun j => decide (sorted.getD j 0 ∉ sel))).map
    (fun j => sorted.getD j 0)

theorem findNextBest_eq_spec (sorted : List Nat) (sel : Finset Nat) :
    ∀ i, findNextBest sorted sel i (sorted.getD i 0) = specNextBest sorted sel i := by
  intro i
  induction i with
  | zero =>
    unfold findNextBest specNextBest
    have h1 : (List.range (0 + 1)).reverse = [0] := rfl
    rw [h1]
    by_cases h : sorted.getD 0 0 ∈ sel
    · rw [if_pos h,
        List.find?_cons_of_neg _ (by simp only [decide_eq_true_eq]; exact fun hc => hc h)]
      rfl
    · rw [if_neg h,
        List.find?_cons_of_pos _ (by simp only [decide_eq_true_eq]; exact h)]
      rfl
  | succ j ih =>
    unfold findNextBest specNextBest
    rw [List.range_succ, List.reverse_append]
    simp only [List.reverse_cons, List.reverse_nil, List.nil_append, List.singleton_append]
    by_cases h : sorted.getD (j + 1) 0 ∈ sel
    · rw [if_pos h,
        List.find?_cons_of_neg _ (by simp only [decide_eq_true_eq]; exact fun hc => hc h)]
      exact ih
    · rw [if_neg h,
        List.find?_cons_of_pos _ (by simp only [decide_eq_true_eq]; exact h)]
      rfl

theorem getD_indexOf {l : List Nat} {a : Nat} (h : a ∈ l) :
    l.getD (l.indexOf a) 0 = a := by
  have hlt : l.indexOf a < l.length := List.indexOf_lt_length.2 h
  rw [List.getD_eq_getElem?_getD, List.getElem?_eq_getElem hlt, Option.getD_some]
  exact List.indexOf_get hlt

theorem nextBest_setFocusNone (st : PanelState) (f : Nat)
    (hf : st.focusedMedia = some f) :
    (setFocusedMedia st none).nextBestMediaIfFocusesRemoved =
      findNextBest st.sorted st.selectedSet (st.sorted.indexOf f) f := by
  unfold setFocusedMedia
  rw [hf]

/-- C5: when focus is cleared while an item is focused, and in particular
when the focused item is removed, the cached fallback focus equals the
nearest item at or preceding the old focus index that is not selected
(walking backward and skipping every still-selected item), and is null when
the walk passes index 0 without finding one. -/
theorem c5_fallback_focus (st : PanelState) (f : Nat) (removed : Finset Nat)
    (hf : st.focusedMedia = some f) (hmem : f ∈ st.sorted) :
    (setFocusedMedia st none).nextBestMediaIfFocusesRemoved =
      specNextBest st.sorted st.selectedSet (st.sorted.indexOf f) ∧
    (f ∈ removed →
      (removeMedia st removed).nextBestMediaIfFocusesRemoved =
        specNextBest st.sorted st.selectedSet (st.sorted.indexOf f)) := by
  have key : findNextBest st.sorted st.selectedSet (st.sorted.indexOf f) f =
      specNextBest st.sorted st.selectedSet (st.sorted.indexOf f) := by
    have h := findNextBest_eq_spec st.sorted st.selectedSet (st.sorted.indexOf f)
    rwa [getD_indexOf hmem] at h
  constructor
  · rw [nextBest_setFocusNone st f hf]
    exact key
  · intro hr
    unfold removeMedia
    rw [hf]
    dsimp only
    rw [if_pos hr]
    show (setFocusedMedia st none).nextBestMediaIfFocusesRemoved = _
    rw [nextBest_setFocusNone st f hf]
    exact key

/-- Concrete state for the C5 witness: three items, the first two selected,
focus on the second. -/
def stC5 : PanelState :=
  { sorted := [10, 20, 30]
    flags := fun m => decide (m = 10 ∨ m = 20)
    selectedSet := {10, 20}
    focusedMedia := some 20
    lastHitMedia := some 20
    nextBestMediaIfFocusesRemoved := none
    shiftSelectStartedWith := none
    mediaAddedInCurrentShiftSelect := ∅ }

/-- Witness for C5: with items 10 and 20 selected and 20 focused, clearing
focus walks back over only selected items and caches null. -/
theorem c5_fallback_focus_witness :
    (setFocusedMedia stC5 none).nextBestMediaIfFocusesRemoved = none :=
  ((c5_fallback_focus stC5 20 ∅ rfl (by decide)).1).trans (by decide)

/-!
Page cache well-formedness lemmas for C2.
-/

theorem extractPage_some {l : List (Nat × Nat)} {i b : Nat} {l' : List (Nat × Nat)}
    (h : extractPage l i = some (b, l')) :
    ∃ l1 l2, l = l1 ++ (i, b) :: l2 ∧ l' = l1 ++ l2 := by
  induction l generalizing l' with
  | nil => simp [extractPage] at h
  | cons kv rest ih =>
    unfold extractPage at h
    split_ifs at h with hk
    · simp only [Option.some.injEq, Prod.mk.injEq] at h
      obtain ⟨hb, hl⟩ := h
      refine ⟨[], rest, ?_, ?_⟩
      · have hkv : kv = (i, b) := by
          cases kv
          simp_all
        rw [hkv]
        rfl
      · rw [← hl]
        rfl
    · cases hrec : extractPage rest i with
      | none => rw [hrec] at h; simp at h
      | some p =>
        obtain ⟨b', rest'⟩ := p
        rw [hrec] at h
        simp only [Option.some.injEq, Prod.mk.injEq] at h
        obtain ⟨hb, hl⟩ := h
        rw [hb] at hrec
        obtain ⟨l1, l2, hrest, hrest'⟩ := ih hrec
        refine ⟨kv :: l1, l2, ?_, ?_⟩
        · rw [List.cons_append, ← hrest]
        · rw [← hl, hrest', List.cons_append]

theorem extractPage_perm {l : List (Nat × Nat)} {i b : Nat} {l' : List (Nat × Nat)}
    (h : extractPage l i = some (b, l')) : l.Perm ((i, b) :: l') := by
  obtain ⟨l1, l2, h1, h2⟩ := extractPage_some h
  rw [h1, h2]
  exact List.perm_middle

theorem extractPage_none_forall {l : List (Nat × Nat)} {i : Nat}
    (h : extractPage l i = none) : ∀ kv ∈ l, kv.1 ≠ i := by
  induction l with
  | nil => simp
  | cons kv rest ih =>
    intro kv' hkv'
    unfold extractPage at h
    split_ifs at h with hk
    · cases hrec : extractPage rest i with
      | some p => rw [hrec] at h; simp at h
      | none =>
        rcases List.mem_cons.1 hkv' with h1 | h1
        · rw [h1]; exact hk
        · exact ih hrec kv' h1

theorem lookupPage_eq_none {l : List (Nat × Nat)} {i : Nat}
    (h : ∀ kv ∈ l, kv.1 ≠ i) : lookupPage l i = none := by
  unfold lookupPage
  rw [List.find?_eq_none.2]
  · rfl
  · intro kv hkv
    simp [h kv hkv]

theorem lookup_none_forall {l : List (Nat × Nat)} {i : Nat}
    (h : lookupPage l i = none) : ∀ kv ∈ l, kv.1 ≠ i := by
  unfold lookupPage at h
  have hf : l.find? (fun kv => kv.1 == i) = none := by
    cases hE : l.find? (fun kv => kv.1 == i)
    · rfl
    · rw [hE] at h; simp at h
  intro kv hkv
  have := List.find?_eq_none.1 hf kv hkv
  simpa using this

theorem lookupPage_append_self {l : List (Nat × Nat)} {i b : Nat}
    (h : lookupPage l i = none) : lookupPage (l ++ [(i, b)]) i = some b := by
  unfold lookupPage at h ⊢
  have hf : l.find? (fun kv => kv.1 == i) = none := by
    cases hE : l.find? (fun kv => kv.1 == i)
    · rfl
    · rw [hE] at h; simp at h
  rw [List.find?_append, hf]
  simp [List.find?]

theorem cacheWF_dirtyPage (i : Nat) {c : PageCache} (h : cacheWF c) :
    cacheWF (dirtyPage i c) := by
  unfold dirtyPage
  cases hE : extractPage c.clean i with
  | none => exact h
  | some p =>
    obtain ⟨b, clean'⟩ := p
    obtain ⟨h1, h2, h3⟩ := h
    have hperm := extractPage_perm hE
    have hkeys : (i :: clean'.map Prod.fst).Nodup := by
      have := (hperm.map Prod.fst).nodup h1
      simpa using this
    have hbufs : ((b :: clean'.map Prod.snd) ++ c.dirty).Nodup := by
      have := ((hperm.map Prod.snd).append_right c.dirty).nodup h2
      simpa using this
    have hp : ((b :: clean'.map Prod.snd) ++ c.dirty).Perm
        (clean'.map Prod.snd ++ (c.dirty ++ [b])) := by
      have e1 : (b :: clean'.map Prod.snd) ++ c.dirty =
          [b] ++ (clean'.map Prod.snd ++ c.dirty) := by simp
      have e2 : clean'.map Prod.snd ++ (c.dirty ++ [b]) =
          (clean'.map Prod.snd ++ c.dirty) ++ [b] := by
        rw [List.append_assoc]
      rw [e1, e2]
      exact List.perm_append_comm
    refine ⟨hkeys.of_cons, hp.nodup hbufs, ?_⟩
    intro x hx
    apply h3
    have hx' : x ∈ (b :: clean'.map Prod.snd) ++ c.dirty := hp.mem_iff.2 hx
    exact ((hperm.map Prod.snd).append_right c.dirty).mem_iff.2 (by simpa using hx')

theorem cacheWF_createNewDirtyPage {c : PageCache} (h : cacheWF c) :
    cacheWF (createNewDirtyPage c) := by
  obtain ⟨h1, h2, h3⟩ := h
  have hnotin : c.nextBuf ∉ c.clean.map Prod.snd ++ c.dirty :=
    fun hx => lt_irrefl _ (h3 _ hx)
  refine ⟨h1, ?_, ?_⟩
  · show (c.clean.map Prod.snd ++ (c.dirty ++ [c.nextBuf])).Nodup
    have hstep : ((c.clean.map Prod.snd ++ c.dirty) ++ [c.nextBuf]).Nodup := by
      rw [List.nodup_append]
      refine ⟨h2, List.nodup_singleton _, ?_⟩
      intro x hx hx'
      rw [List.mem_singleton.1 hx'] at hx
      exact hnotin hx
    rwa [List.append_assoc] at hstep
  · intro x hx
    have hx' : x ∈ c.clean.map Prod.snd ++ (c.dirty ++ [c.nextBuf]) := hx
    show x < c.nextBuf + 1
    rw [← List.append_assoc] at hx'
    rcases List.mem_append.1 hx' with hx1 | hx1
    · exact Nat.lt_succ_of_lt (h3 _ hx1)
    · rw [List.mem_singleton.1 hx1]
      exact Nat.lt_succ_self _

theorem cacheWF_deleteAllDirtyPages {c : PageCache} (h : cacheWF c) :
    cacheWF (deleteAllDirtyPages c) := by
  obtain ⟨h1, h2, h3⟩ := h
  refine ⟨h1, ?_, ?_⟩
  · show (c.clean.map Prod.snd ++ ([] : List Nat)).Nodup
    simpa using h2.of_append_left
  · intro x hx
    have hx' : x ∈ c.clean.map Prod.snd ++ ([] : List Nat) := hx
    rw [List.append_nil] at hx'
    exact h3 _ (List.mem_append_left _ hx')

theorem cacheWF_foldl_dirtyPages (l : List (Nat × Nat)) :
    ∀ c, cacheWF c → cacheWF (l.foldl (fun acc kv => dirtyPage kv.1 acc) c) := by
  induction l with
  | nil => intro c h; simpa using h
  | cons kv rest ih =>
    intro c h
    rw [List.foldl_cons]
    exact ih _ (cacheWF_dirtyPage _ h)

theorem cacheWF_dirtyAllPages {c : PageCache} (h : cacheWF c) :
    cacheWF (dirtyAllPages c) :=
  cacheWF_foldl_dirtyPages c.clean c h

theorem ensureStep_wf {c : PageCache} {i b : Nat} (h : cacheWF c)
    (hi : lookupPage c.clean i = none) (hb : c.dirty.getLast? = some b) :
    cacheWF { c with dirty := c.dirty.dropLast, clean := c.clean ++ [(i, b)] } ∧
    lookupPage (c.clean ++ [(i, b)]) i = some b := by
  obtain ⟨h1, h2, h3⟩ := h
  have hdirty : c.dirty.dropLast ++ [b] = c.dirty := List.dropLast_append_getLast? b hb
  have hkeysabs : i ∉ c.clean.map Prod.fst := by
    intro hmem
    obtain ⟨kv, hkv, hk⟩ := List.mem_map.1 hmem
    exact lookup_none_forall hi kv hkv hk
  refine ⟨⟨?_, ?_, ?_⟩, lookupPage_append_self hi⟩
  · show ((c.clean ++ [(i, b)]).map Prod.fst).Nodup
    rw [List.map_append, List.nodup_append]
    refine ⟨h1, by simp, ?_⟩
    intro x hx hx'
    have hxi : x = i := by simpa using hx'
    rw [hxi] at hx
    exact hkeysabs hx
  · show ((c.clean ++ [(i, b)]).map Prod.snd ++ c.dirty.dropLast).Nodup
    have e1 : (c.clean ++ [(i, b)]).map Prod.snd = c.clean.map Prod.snd ++ [b] := by simp
    rw [e1, List.append_assoc]
    have hperm : (c.clean.map Prod.snd ++ ([b] ++ c.dirty.dropLast)).Perm
        (c.clean.map Prod.snd ++ (c.dirty.dropLast ++ [b])) :=
      List.Perm.append_left _ List.perm_append_comm
    rw [hdirty] at hperm
    exact hperm.symm.nodup h2
  · intro x hx
    show x < c.nextBuf
    apply h3
    have hx' : x ∈ (c.clean.map Prod.snd ++ [b]) ++ c.dirty.dropLast := by
      simpa using hx
    rcases List.mem_append.1 hx' with hx1 | hx1
    · rcases List.mem_append.1 hx1 with hx2 | hx2
      · exact List.mem_append_left _ hx2
      · have hbmem : b ∈ c.dirty := by
          rw [← hdirty]
          exact List.mem_append_right _ (by simp)
        rw [List.mem_singleton.1 hx2]
        exact List.mem_append_right _ hbmem
    · have hxd : x ∈ c.dirty := by
        rw [← hdirty]
        exact List.mem_append_left _ hx1
      exact List.mem_append_right _ hxd

theorem popDirtyInto_wf {c1 : PageCache} {i : Nat} (hwf : cacheWF c1)
    (hlook : lookupPage c1.clean i = none) (hne : c1.dirty ≠ []) :
    cacheWF (popDirtyInto i c1) ∧
    (lookupPage (popDirtyInto i c1).clean i).isSome = true := by
  unfold popDirtyInto
  cases hb : c1.dirty.getLast? with
  | none =>
    exact absurd (by simpa using hb) hne
  | some b =>
    obtain ⟨hwf', hlook'⟩ := ensureStep_wf hwf hlook hb
    exact ⟨hwf', by rw [hlook']; rfl⟩

theorem dirtyPage_lookup_none {c : PageCache} (s : Nat) {i : Nat}
    (hi : lookupPage c.clean i = none) :
    lookupPage (dirtyPage s c).clean i = none := by
  unfold dirtyPage
  cases hE : extractPage c.clean s with
  | none => exact hi
  | some p =>
    obtain ⟨b, clean'⟩ := p
    apply lookupPage_eq_none
    intro kv hkv
    exact lookup_none_forall hi kv
      ((extractPage_perm hE).mem_iff.2 (List.mem_cons_of_mem _ hkv))

theorem dirtyPage_dirty_ne_nil {c : PageCache} {s : Nat}
    (hs : (lookupPage c.clean s).isSome = true) : (dirtyPage s c).dirty ≠ [] := by
  unfold dirtyPage
  cases hE : extractPage c.clean s with
  | none =>
    exfalso
    have hnone := lookupPage_eq_none (extractPage_none_forall hE)
    rw [hnone] at hs
    simp at hs
  | some p =>
    obtain ⟨b, clean'⟩ := p
    simp

theorem obtainDirty_wf {c : PageCache} (steal : Option Nat) (h : cacheWF c) :
    cacheWF (obtainDirty steal c) := by
  unfold obtainDirty
  split_ifs with hd
  · cases steal with
    | some s => exact cacheWF_dirtyPage _ h
    | none => exact cacheWF_createNewDirtyPage h
  · exact h

theorem obtainDirty_lookup_none {c : PageCache} (steal : Option Nat) {i : Nat}
    (hi : lookupPage c.clean i = none) :
    lookupPage (obtainDirty steal c).clean i = none := by
  unfold obtainDirty
  split_ifs with hd
  · cases steal with
    | some s => exact dirtyPage_lookup_none s hi
    | none => exact hi
  · exact hi

theorem obtainDirty_dirty_ne_nil {c : PageCache} {steal : Option Nat}
    (hsteal : ∀ s, steal = some s → (lookupPage c.clean s).isSome = true) :
    (obtainDirty steal c).dirty ≠ [] := by
  unfold obtainDirty
  split_ifs with hd
  · cases steal with
    | some s => exact dirtyPage_dirty_ne_nil (hsteal s rfl)
    | none => simp [createNewDirtyPage]
  · intro hnil
    exact hd (by simp [hnil])

theorem cacheWF_ensurePage (i : Nat) (steal : Option Nat) {c : PageCache}
    (h : cacheWF c)
    (hsteal : ∀ s, steal = some s → (lookupPage c.clean s).isSome = true) :
    cacheWF (ensurePage i steal c) ∧
    (lookupPage (ensurePage i steal c).clean i).isSome = true := by
  unfold ensurePage
  by_cases hl : (lookupPage c.clean i).isSome = true
  · rw [if_pos hl]
    exact ⟨h, hl⟩
  · rw [if_neg hl]
    have hinone : lookupPage c.clean i = none := by
      cases hE : lookupPage c.clean i
      · rfl
      · rw [hE] at hl; simp at hl
    exact popDirtyInto_wf (obtainDirty_wf steal h)
      (obtainDirty_lookup_none steal hinone) (obtainDirty_dirty_ne_nil hsteal)

/-- C2: every page cache operation (dirtying one page, dirtying all pages,
discarding the dirty pool, allocating a fresh buffer, and the paint-pass
ensure step) preserves well-formedness — so each page index is clean at most
once and every buffer lives in at most one of the clean and dirty pools,
never both — and after the ensure step the requested page index is in the
clean pool. -/
theorem c2_page_pools (c : PageCache) (i : Nat) (steal : Option Nat)
    (h : cacheWF c)
    (hsteal : ∀ s, steal = some s → (lookupPage c.clean s).isSome = true) :
    cacheWF (dirtyPage i c) ∧
    cacheWF (dirtyAllPages c) ∧
    cacheWF (deleteAllDirtyPages c) ∧
    cacheWF (createNewDirtyPage c) ∧
    cacheWF (ensurePage i steal c) ∧
    (lookupPage (ensurePage i steal c).clean i).isSome = true :=
  ⟨cacheWF_dirtyPage i h, cacheWF_dirtyAllPages h, cacheWF_deleteAllDirtyPages h,
    cacheWF_createNewDirtyPage h, (cacheWF_ensurePage i steal h hsteal).1,
    (cacheWF_ensurePage i steal h hsteal).2⟩

/-- Concrete page cache for the C2 witness: one clean page, one dirty buffer. -/
def cacheWitness : PageCache :=
  { clean := [(0, 5)], dirty := [3], nextBuf := 6 }

/-- Witness for C2: ensuring page 2 on the concrete cache leaves page 2 in
the clean pool. -/
theorem c2_page_pools_witness :
    (lookupPage (ensurePage 2 none cacheWitness).clean 2).isSome = true :=
  (c2_page_pools cacheWitness 2 none (by decide) (fun s hs => by cases hs)).2.2.2.2.2

/-!
Geometry recomputation (C6) and the resize invalidation policy (C7).
-/

/-- C6: the geometry recomputation yields
`columns = max 1 (viewport_width / span_width)`,
`rows_per_canvas_page = max 1 ((viewport_height / span_height) / 2)` and
`rows_per_actual_page = max 1 (viewport_height / span_height)` (all integer
divisions), for every viewport size and every positive span size. -/
theorem c6_geometry (st : ThumbState) (myWidth myHeight spanWidth spanHeight : Nat)
    (_hw : 0 < spanWidth) (_hh : 0 < spanHeight) :
    (reinitialisePageCacheIfNeeded st myWidth myHeight spanWidth spanHeight).numColumns =
      max 1 (myWidth / spanWidth) ∧
    (reinitialisePageCacheIfNeeded st myWidth myHeight spanWidth spanHeight).numRowsPerCanvasPage =
      max 1 ((myHeight / spanHeight) / 2) ∧
    (reinitialisePageCacheIfNeeded st myWidth myHeight spanWidth spanHeight).numRowsPerActualPage =
      max 1 (myHeight / spanHeight) := by
  unfold reinitialisePageCacheIfNeeded
  dsimp only
  split_ifs <;> exact ⟨rfl, rfl, rfl⟩

/-- Witness for C6 at a concrete geometry: a 300 by 220 viewport with 70 by
50 spans gives 4 columns, 2 rows per canvas page, 4 rows per actual page. -/
theorem c6_geometry_witness :
    (reinitialisePageCacheIfNeeded
      { cache := { clean := [], dirty := [], nextBuf := 0 },
        numColumns := 1, numRowsPerCanvasPage := 1, numRowsPerActualPage := 1,
        lastWidth := 20, lastHeight := 20 } 300 220 70 50).numColumns = 4 :=
  ((c6_geometry
      { cache := { clean := [], dirty := [], nextBuf := 0 },
        numColumns := 1, numRowsPerCanvasPage := 1, numRowsPerActualPage := 1,
        lastWidth := 20, lastHeight := 20 } 300 220 70 50
      (by decide) (by decide)).1).trans (by decide)

theorem dirtyAllPages_clean_nil :
    ∀ (l : List (Nat × Nat)) (c : PageCache), c.clean = l →
      (l.foldl (fun acc kv => dirtyPage kv.1 acc) c).clean = [] := by
  intro l
  induction l with
  | nil =>
    intro c hc
    simpa using hc
  | cons kv rest ih =>
    intro c hc
    have h1 : dirtyPage kv.1 c = { c with clean := rest, dirty := c.dirty ++ [kv.2] } := by
      unfold dirtyPage
      rw [hc]
      simp [extractPage]
    rw [List.foldl_cons, h1]
    exact ih _ rfl

/-- Concrete state for C7: geometry already consistent with a 100 by 100
viewport at 50 by 50 spans, with one pending dirty buffer. -/
def stC7 : ThumbState :=
  { cache := { clean := [], dirty := [7], nextBuf := 8 }
    numColumns := 2
    numRowsPerCanvasPage := 1
    numRowsPerActualPage := 2
    lastWidth := 100
    lastHeight := 100 }

/-- C7 counterexample: growing the viewport in height only (100 by 100 to
100 by 101) with unchanged columns and rows-per-canvas-page leaves the
pending dirty buffer in place, unlike the claim that growth discards the
dirty buffers. -/
theorem c7_counterexample :
    stC7.lastHeight < 101 ∧
    (eventResize stC7 100 101 50 50).cache.dirty = [7] ∧
    ¬(eventResize stC7 100 101 50 50).cache.dirty = [] := by
  decide

/-- C7 (amended): on a resize, if the recomputed column count differs from
the old one, the clean pool is emptied (and the dirty pool discarded); if
the column count and rows-per-canvas-page are unchanged and the viewport
only shrank in height, the page cache is left untouched; and when the
viewport grew in width (rather than in any direction), the pending dirty
buffers are discarded. -/
theorem c7_resize_invalidation (st : ThumbState)
    (myWidth myHeight spanWidth spanHeight : Nat) :
    (max 1 (myWidth / spanWidth) ≠ st.numColumns →
      (eventResize st myWidth myHeight spanWidth spanHeight).cache.clean = [] ∧
      (eventResize st myWidth myHeight spanWidth spanHeight).cache.dirty = []) ∧
    (max 1 (myWidth / spanWidth) = st.numColumns →
      max 1 ((myHeight / spanHeight) / 2) = st.numRowsPerCanvasPage →
      myWidth = st.lastWidth → myHeight < st.lastHeight →
      (eventResize st myWidth myHeight spanWidth spanHeight).cache = st.cache) ∧
    (st.lastWidth < myWidth →
      (eventResize st myWidth myHeight spanWidth spanHeight).cache.dirty = []) := by
  unfold eventResize reinitialisePageCacheIfNeeded
  dsimp only
  split_ifs with h1 h2
  · refine ⟨fun _ => ⟨?_, rfl⟩, ?_, fun _ => rfl⟩
    · exact dirtyAllPages_clean_nil st.cache.clean st.cache rfl
    · intro hcols hrows hw _hh
      exfalso
      rcases h2 with hlay | hwide
      · rcases hlay with hc | hr
        · exact hc hcols.symm
        · exact hr hrows.symm
      · rw [hw] at hwide
        exact lt_irrefl _ hwide
  · have hlay := not_or.1 h2
    have hcomp := not_or.1 hlay.1
    refine ⟨?_, fun _ _ _ _ => rfl, ?_⟩
    · intro hne
      exact absurd (not_not.1 hcomp.1).symm hne
    · intro hlt
      exact absurd hlt hlay.2
  · have hdims := not_or.1 h1
    have hdims1 := not_or.1 hdims.1
    have hlay := not_or.1 hdims.2
    refine ⟨?_, fun _ _ _ _ => rfl, ?_⟩
    · intro hne
      exact absurd (not_not.1 hlay.1).symm hne
    · intro hlt
      exact absurd (Nat.ne_of_lt hlt) hdims1.1

/-- Concrete state for the C7 witness: one clean page and one dirty buffer,
geometry consistent with a 100 by 100 viewport at 50 by 50 spans. -/
def stC7b : ThumbState :=
  { cache := { clean := [(0, 5)], dirty := [3], nextBuf := 6 }
    numColumns := 2
    numRowsPerCanvasPage := 1
    numRowsPerActualPage := 2
    lastWidth := 100
    lastHeight := 100 }

/-- Witness for C7 (amended): growing the viewport width to 160 changes the
column count to 3, emptying both pools. -/
theorem c7_resize_invalidation_witness :
    (eventResize stC7b 160 100 50 50).cache.clean = [] ∧
    (eventResize stC7b 160 100 50 50).cache.dirty = [] :=
  (c7_resize_invalidation stC7b 160 100 50 50).1 (by decide)

/-!
Fade scheduler (C8, C9) and hit testing (C10).
-/

/-- Concrete stale animated entry for C8: created this instant (zero elapsed
frame periods), remembering index 0 and item 5. -/
def entC8 : DrawEntry :=
  { hash := 1
    thumbnail := 5
    thumbnailIndex := 0
    animated := true
    framesDrawn := 0
    framesToDraw := 30
    drawComplete := false }

/-- C8 counterexample: against an empty sorted sequence and an empty clean
pool the entry is stale on both counts, yet with zero elapsed frame periods
it is not yet due and the tick keeps it in the pending map instead of
removing it. -/
theorem c8_counterexample :
    ([] : List Nat).get? entC8.thumbnailIndex ≠ some entC8.thumbnail ∧
    entC8.thumbnailIndex / (1 * 1) ∉ ([] : List Nat) ∧
    processEntry [] [] 1 1 entC8 0 = (some entC8, 0, 0) :=
  ⟨by decide, by decide, rfl⟩

/-- C8 (amended): during an animation tick, a processed entry that is due to
draw and whose remembered index no longer holds the same item, or whose
covering page is no longer in the clean pool, is removed from the pending
map with no draw call; an uncompleted entry that is not yet due is retained
untouched for a later tick. -/
theorem c8_stale_entry_dropped (sorted : List Nat) (cleanIndices : List Nat)
    (numColumns numRowsPerCanvasPage : Nat) (e : DrawEntry) (elapsed : Nat) :
    (drawDue e elapsed = true →
      (sorted.get? e.thumbnailIndex ≠ some e.thumbnail ∨
        e.thumbnailIndex / (numColumns * numRowsPerCanvasPage) ∉ cleanIndices) →
      processEntry sorted cleanIndices numColumns numRowsPerCanvasPage e elapsed =
        (none, 0, 0)) ∧
    (drawDue e elapsed = false → e.drawComplete = false →
      processEntry sorted cleanIndices numColumns numRowsPerCanvasPage e elapsed =
        (some e, 0, 0)) := by
  constructor
  · intro hdue hstale
    unfold processEntry
    rw [if_pos hdue]
    dsimp only
    rcases hstale with hs | hs
    · rw [if_pos hs]
    · by_cases he : sorted.get? e.thumbnailIndex ≠ some e.thumbnail
      · rw [if_pos he]
      · rw [if_neg he, if_pos hs]
  · intro hdue hcomp
    unfold processEntry
    rw [if_neg (by rw [hdue]; exact Bool.false_ne_true), if_neg (by rw [hcomp]; exact Bool.false_ne_true)]

/-- Witness for C8 (amended): a due plain entry remembering item 9 at index
0 over the sequence holding item 5 there is dropped without drawing. -/
theorem c8_stale_entry_dropped_witness :
    processEntry [5] [0] 1 1
      { hash := 2, thumbnail := 9, thumbnailIndex := 0, animated := false,
        framesDrawn := 0, framesToDraw := 1, drawComplete := false } 3 =
      (none, 0, 0) :=
  (c8_stale_entry_dropped [5] [0] 1 1
    { hash := 2, thumbnail := 9, thumbnailIndex := 0, animated := false,
      framesDrawn := 0, framesToDraw := 1, drawComplete := false } 3).1
    (by decide) (Or.inl (by decide))

/-- C9: the animated draw entry frame budget is 30 frames and coincides with
the claim formula `max 1 (round (0.5 / frame_duration))` at the 60 Hz frame
period; `_FadeThumbnails` gives the entry this budget exactly when the fade
option is set, and with fading disabled the plain entry carries a budget of
one frame and completes in exactly one full-opacity draw with no
reduced-opacity draws. -/
theorem c9_fade_frame_budget (fadeThumbnails : Bool)
    (hash thumbnail thumbnailIndex elapsed : Nat) :
    numFramesToDrawAnimated = 30 ∧
    numFramesToDrawAnimated =
      max (Int.toNat (round (fadeDurationS / frameDuration60FPS))) 1 ∧
    (mkThumbnailDrawObject fadeThumbnails hash thumbnail thumbnailIndex).framesToDraw =
      (if fadeThumbnails then 30 else 1) ∧
    drawToPainter (mkThumbnailDrawObject false hash thumbnail thumbnailIndex) elapsed =
      ({ mkThumbnailDrawObject false hash thumbnail thumbnailIndex with
          drawComplete := true }, 1, 0) := by
  have h30 : numFramesToDrawAnimated = 30 := by
    unfold numFramesToDrawAnimated fadeDurationS frameDuration60FPS
    norm_num
    decide
  refine ⟨h30, ?_, ?_, ?_⟩
  · rw [h30]
    unfold fadeDurationS frameDuration60FPS
    norm_num
    decide
  · cases fadeThumbnails <;> simp [mkThumbnailDrawObject, h30]
  · rfl

/-- C10: hit testing never escapes the sorted sequence.  Any returned item is
an element of the sequence; positions in the margin dead zone, positions
whose column index reaches the column count, and positions whose computed
thumbnail index is negative or at or past the sequence length all return no
item. -/
theorem c10_hit_test_safe (sorted : List Nat) (numColumns : Nat)
    (spanX spanY thumbnailMargin x y : Int)
    (_hx : 0 < spanX) (_hy : 0 < spanY) :
    (∀ m, getThumbnailUnderMouse sorted numColumns spanX spanY thumbnailMargin x y =
        some m → m ∈ sorted) ∧
    ((x.fmod spanX ≤ thumbnailMargin ∨ y.fmod spanY ≤ thumbnailMargin ∨
        x.fmod spanX > spanX - thumbnailMargin ∨ y.fmod spanY > spanY - thumbnailMargin) →
      getThumbnailUnderMouse sorted numColumns spanX spanY thumbnailMargin x y = none) ∧
    (¬(x.fmod spanX ≤ thumbnailMargin ∨ y.fmod spanY ≤ thumbnailMargin ∨
        x.fmod spanX > spanX - thumbnailMargin ∨ y.fmod spanY > spanY - thumbnailMargin) →
      (numColumns : Int) ≤ x.fdiv spanX →
      getThumbnailUnderMouse sorted numColumns spanX spanY thumbnailMargin x y = none) ∧
    (((numColumns : Int) * y.fdiv spanY + x.fdiv spanX < 0 ∨
        (sorted.length : Int) ≤ (numColumns : Int) * y.fdiv spanY + x.fdiv spanX) →
      getThumbnailUnderMouse sorted numColumns spanX spanY thumbnailMargin x y = none) := by
  unfold getThumbnailUnderMouse
  dsimp only
  refine ⟨?_, ?_, ?_, ?_⟩
  · intro m hm
    split_ifs at hm with h1 h2 h3 h4
    have hge : ¬((numColumns : Int) * y.fdiv spanY + x.fdiv spanX < 0) := h3
    have hlt : (numColumns : Int) * y.fdiv spanY + x.fdiv spanX < sorted.length := by
      omega
    have htn : ((numColumns : Int) * y.fdiv spanY + x.fdiv spanX).toNat < sorted.length := by
      omega
    have hm' : sorted.getD ((numColumns : Int) * y.fdiv spanY + x.fdiv spanX).toNat 0 = m := by
      exact Option.some.inj hm
    rw [← hm', List.getD_eq_getElem?_getD, List.getElem?_eq_getElem htn, Option.getD_some]
    exact List.getElem_mem htn
  · intro h
    rw [if_pos h]
  · intro hdead hcol
    rw [if_neg hdead, if_pos hcol]
  · intro h
    by_cases hdead : (x.fmod spanX ≤ thumbnailMargin ∨ y.fmod spanY ≤ thumbnailMargin ∨
        x.fmod spanX > spanX - thumbnailMargin ∨ y.fmod spanY > spanY - thumbnailMargin)
    · rw [if_pos hdead]
    · rw [if_neg hdead]
      by_cases hcol : (numColumns : Int) ≤ x.fdiv spanX
      · rw [if_pos hcol]
      · rw [if_neg hcol]
        rcases h with h | h
        · rw [if_pos h]
        · have hneg : ¬((numColumns : Int) * y.fdiv spanY + x.fdiv spanX < 0) := by
            omega
          rw [if_neg hneg, if_pos h]

/-- Witness for C10: at position (70, 10) with 60 by 60 spans, margin 5 and
two columns over the three-item sequence, the hit test returns item 6, which
is in the sequence. -/
theorem c10_hit_test_safe_witness :
    getThumbnailUnderMouse [5, 6, 7] 2 60 60 5 70 10 = some 6 ∧ 6 ∈ [5, 6, 7] :=
  ⟨by decide,
    (c10_hit_test_safe [5, 6, 7] 2 60 60 5 70 10 (by decide) (by decide)).1 6 (by decide)⟩
